import Mathlib

/-!
Shallow embedding of the badger-backed blockstore
(src/blockstore/badger/blockstore.go) for verification of its
natural-language specification.

Bytes are modelled as `Nat` (with `< 256` bounds where relevant), byte
slices as `List Nat`, the badger KV engine as an association list, and the
multihash journal as the byte stream appended to `MultiHashes.bin`.
Fallible engine calls whose failure matters to the spec (write-batch
flushes, symlink resolution, shadow opens, context cancellation) are
modelled by explicit error-injection parameters; all other engine calls
are modelled as infallible.  Goroutine interleavings are out of scope:
operations are given sequential (linearized) semantics.
-/

namespace BadgerBs

/-- Error kinds of the store (section 7 of the spec).  `ioFailure` stands
for any wrapped KV-engine / journal I/O error (the spec's BackendIO). -/
inductive Err where
  | closed
  | notFound
  | unsupportedDigest
  | undecodableKey
  | ioFailure
  | moveInProgress
  | ctxCanceled
  | noRewrite
  | fatal
  | optionConflict
  deriving DecidableEq

/-- `bsState` from the source: Open -> Closing -> Closed. -/
inductive BsState where
  | stateOpen
  | stateClosing
  | stateClosed
  deriving DecidableEq

export BsState (stateOpen stateClosing stateClosed)

/-- `bsMoveState` from the source. -/
inductive BsMoveState where
  | moveStateNone
  | moveStateMoving
  | moveStateCleanup
  | moveStateLock
  deriving DecidableEq

export BsMoveState (moveStateNone moveStateMoving moveStateCleanup moveStateLock)

/-- A CID, reduced to the data the store actually consumes: its multihash
bytes (`c.Hash()`).  The zero / undefined CID has empty bytes, so
`Defined` is the non-emptiness of the hash. -/
structure Cid where
  hash : List Nat
  deriving DecidableEq

/-- `cid.Cid.Defined()`: true for every CID other than the zero value. -/
def Cid.Defined (c : Cid) : Bool := !c.hash.isEmpty

/-- A block: a CID plus its raw data bytes (`blocks.Block`). -/
structure Block where
  cid : Cid
  rawData : List Nat
  deriving DecidableEq

/-- The badger KV store, modelled as an association list from storage key
to value; lookups take the first match. -/
abbrev KV := List (List Nat × List Nat)

/-- Key lookup in the KV model (`badgerGet`, collapsing the tri-state to
an `Option` since engine read errors are not injected). -/
def kvGet : KV → List Nat → Option (List Nat)
  | [], _ => none
  | (k2, v) :: rest, k => if k2 = k then some v else kvGet rest k

/-- `batch.Delete(k)`: remove the key from the KV model. -/
def kvDelete (db : KV) (k : List Nat) : KV := db.filter (fun e => ¬ e.1 = k)

/-- `batch.Set(k, v)` (applied at flush): overwrite-or-insert. -/
def kvSet (db : KV) (k v : List Nat) : KV := (k, v) :: kvDelete db k

/-! ### Base32 codec (`go-base32` RawStdEncoding: standard alphabet, no
padding), the codec used by `PooledStorageKey` / `StorageKey` and by key
decoding in iteration and copy. -/

/-- The standard base32 alphabet "ABCDEFGHIJKLMNOPQRSTUVWXYZ234567" as
ASCII codes. -/
def b32alphabet : List Nat :=
  [65, 66, 67, 68, 69, 70, 71, 72, 73, 74, 75, 76, 77, 78, 79, 80,
   81, 82, 83, 84, 85, 86, 87, 88, 89, 90, 50, 51, 52, 53, 54, 55]

/-- The alphabet character for a 5-bit value. -/
def alphaAt (v : Nat) : Nat := b32alphabet.getD v 0

def b32valAux : List Nat → Nat → Nat → Option Nat
  | [], _, _ => none
  | a :: as, c, i => if c = a then some i else b32valAux as c (i + 1)

/-- The 5-bit value of an alphabet character; `none` for a byte outside
the alphabet (the decoder's CorruptInputError). -/
def b32val (c : Nat) : Option Nat := b32valAux b32alphabet c 0

/-- `base32.RawStdEncoding.Encode`: 5 bytes become 8 characters; the
final 1/2/3/4-byte quantum becomes 2/4/5/7 characters, no padding. -/
def base32encode : List Nat → List Nat
  | b0 :: b1 :: b2 :: b3 :: b4 :: rest =>
      alphaAt (b0 / 8) ::
      alphaAt ((b0 % 8) * 4 + b1 / 64) ::
      alphaAt ((b1 / 2) % 32) ::
      alphaAt ((b1 % 2) * 16 + b2 / 16) ::
      alphaAt ((b2 % 16) * 2 + b3 / 128) ::
      alphaAt ((b3 / 4) % 32) ::
      alphaAt ((b3 % 4) * 8 + b4 / 32) ::
      alphaAt (b4 % 32) ::
      base32encode rest
  | [b0, b1, b2, b3] =>
      [alphaAt (b0 / 8), alphaAt ((b0 % 8) * 4 + b1 / 64),
       alphaAt ((b1 / 2) % 32), alphaAt ((b1 % 2) * 16 + b2 / 16),
       alphaAt ((b2 % 16) * 2 + b3 / 128), alphaAt ((b3 / 4) % 32),
       alphaAt ((b3 % 4) * 8)]
  | [b0, b1, b2] =>
      [alphaAt (b0 / 8), alphaAt ((b0 % 8) * 4 + b1 / 64),
       alphaAt ((b1 / 2) % 32), alphaAt ((b1 % 2) * 16 + b2 / 16),
       alphaAt ((b2 % 16) * 2)]
  | [b0, b1] =>
      [alphaAt (b0 / 8), alphaAt ((b0 % 8) * 4 + b1 / 64),
       alphaAt ((b1 / 2) % 32), alphaAt ((b1 % 2) * 16)]
  | [b0] =>
      [alphaAt (b0 / 8), alphaAt ((b0 % 8) * 4)]
  | [] => []

/-- `base32.RawStdEncoding.Decode`: 8 characters become 5 bytes; a final
quantum of 7/5/4/2 characters becomes 4/3/2/1 bytes; a leftover of
1, 3 or 6 characters, or a character outside the alphabet, is an error. -/
def base32decode : List Nat → Option (List Nat)
  | [] => some []
  | c0 :: c1 :: c2 :: c3 :: c4 :: c5 :: c6 :: c7 :: rest =>
    match b32val c0, b32val c1, b32val c2, b32val c3,
          b32val c4, b32val c5, b32val c6, b32val c7, base32decode rest with
    | some v0, some v1, some v2, some v3, some v4, some v5, some v6, some v7, some ds =>
        some (
          (v0 * 8 + v1 / 4) ::
          ((v1 % 4) * 64 + v2 * 2 + v3 / 16) ::
          ((v3 % 16) * 16 + v4 / 2) ::
          ((v4 % 2) * 128 + v5 * 4 + v6 / 8) ::
          ((v6 % 8) * 32 + v7) :: ds)
    | _, _, _, _, _, _, _, _, _ => none
  | [c0, c1, c2, c3, c4, c5, c6] =>
    match b32val c0, b32val c1, b32val c2, b32val c3, b32val c4, b32val c5, b32val c6 with
    | some v0, some v1, some v2, some v3, some v4, some v5, some v6 =>
        some [v0 * 8 + v1 / 4, (v1 % 4) * 64 + v2 * 2 + v3 / 16,
              (v3 % 16) * 16 + v4 / 2, (v4 % 2) * 128 + v5 * 4 + v6 / 8]
    | _, _, _, _, _, _, _ => none
  | [c0, c1, c2, c3, c4] =>
    match b32val c0, b32val c1, b32val c2, b32val c3, b32val c4 with
    | some v0, some v1, some v2, some v3, some v4 =>
        some [v0 * 8 + v1 / 4, (v1 % 4) * 64 + v2 * 2 + v3 / 16,
              (v3 % 16) * 16 + v4 / 2]
    | _, _, _, _, _ => none
  | [c0, c1, c2, c3] =>
    match b32val c0, b32val c1, b32val c2, b32val c3 with
    | some v0, some v1, some v2, some v3 =>
        some [v0 * 8 + v1 / 4, (v1 % 4) * 64 + v2 * 2 + v3 / 16]
    | _, _, _, _ => none
  | [c0, c1] =>
    match b32val c0, b32val c1 with
    | some v0, some v1 => some [v0 * 8 + v1 / 4]
    | _, _ => none
  | _ => none

/-! ### Digest policy (`supportedMultihashes`, `isMultihashSupported`) -/

/-- `supportedHashLen = 256 / 8`. -/
def supportedHashLen : Nat := 32

/-- `mhJournalRecordLen = 1 + supportedHashLen`. -/
def mhJournalRecordLen : Nat := 1 + supportedHashLen

/-- The hardcoded multihash policy table, keyed by the varint
type+length header bytes; the value is the 1-byte `journalShortCode`
(the `cidMaker` field is not consumed by any modelled operation). -/
def supportedMultihashes : List (List Nat × Nat) :=
  [([0xA0, 0xE4, 0x02, 0x20], 1),
   ([0x12, 0x20], 0)]

def uvarintAux : List Nat → Nat → Nat → Option (Nat × List Nat)
  | [], _, _ => none
  | b :: rest, shift, acc =>
    if b < 128 then some (acc + b * 2 ^ shift, rest)
    else uvarintAux rest (shift + 7) (acc + (b % 128) * 2 ^ shift)

/-- `binary.Uvarint`: little-endian base-128 varint with continuation
bit (overflow checking elided: supported headers are at most 3 bytes). -/
def uvarint (l : List Nat) : Option (Nat × List Nat) := uvarintAux l 0 0

/-- `multihash.Decode`: parse the type varint, the digest-length varint,
and check the remaining bytes have exactly the declared length.
Returns (code, length, digest). -/
def mhDecode (mh : List Nat) : Option (Nat × Nat × List Nat) :=
  match uvarint mh with
  | none => none
  | some (code, rest) =>
    match uvarint rest with
    | none => none
    | some (len, digest) =>
      if digest.length = len then some (code, len, digest) else none

/-- `isMultihashSupported`: decode the multihash, require the 32-byte
digest width, and look the header bytes up in the policy table.  Returns
the `journalShortCode` on success, `none` for any of the source's error
returns (undecodable, wrong length, unknown prefix). -/
def isMultihashSupported (mh : List Nat) : Option Nat :=
  match mhDecode mh with
  | none => none
  | some (_, len, _) =>
    if len ≠ supportedHashLen then none
    else supportedMultihashes.lookup (mh.take (mh.length - supportedHashLen))

/-! ### The blockstore state -/

/-- The `Blockstore` struct.  Lock words and the viewers waitgroup are
elided (sequential semantics); `pool` is the model of the global
`KeyPool`: the number of currently outstanding pooled buffers
(`pool.Get` increments it, `KeyPool.Put` decrements it); `fs` is the
set of data directories existing on disk, for the moving-GC model.
The Go field `prefix` is spelled `pfx` (`prefix` is a Lean keyword). -/
structure Blockstore where
  state : BsState
  moveState : BsMoveState
  db : KV
  mhJournal : List Nat
  dbNext : Option KV
  mhJournalNext : List Nat
  optsDir : String
  prefixing : Bool
  pfx : List Nat
  pool : Nat
  fs : List String
  deriving DecidableEq

/-- The stored `prefixLen` field: `len(prefix)` when prefixing is
enabled (as set by `Open`), 0 otherwise. -/
def Blockstore.pfxLen (b : Blockstore) : Nat :=
  if b.prefixing then b.pfx.length else 0

/-- `PooledStorageKey`: `prefix || base32_no_padding(c.Hash())`; both
branches of the source return a pooled buffer, so the flag is always
true. -/
def Blockstore.PooledStorageKey (b : Blockstore) (c : Cid) : List Nat × Bool :=
  if !b.prefixing then (base32encode c.hash, true)
  else (b.pfx ++ base32encode c.hash, true)

/-- `StorageKey`: same bytes as `PooledStorageKey`, written into a
caller buffer (buffer reuse is invisible to value semantics). -/
def Blockstore.StorageKey (b : Blockstore) (c : Cid) : List Nat :=
  if b.prefixing then b.pfx ++ base32encode c.hash
  else base32encode c.hash

/-! ### PutMany -/

/-- The read-only probe transaction of `PutMany`: for each (block, key),
a present key is marked skipped (`keys[i] = nil`); an absent key must
classify as supported (else the whole batch fails with
UnsupportedDigest) and contributes a 33-byte journal record
`code || digest` to the in-memory buffer. -/
def probeKeys (db : KV) :
    List (Block × List Nat) → Except Err (List (Block × Option (List Nat)) × List Nat)
  | [] => .ok ([], [])
  | (bl, k) :: rest =>
    match kvGet db k with
    | some _ =>
      match probeKeys db rest with
      | .error e => .error e
      | .ok (l, j) => .ok ((bl, none) :: l, j)
    | none =>
      match isMultihashSupported bl.cid.hash with
      | none => .error .unsupportedDigest
      | some code =>
        match probeKeys db rest with
        | .error e => .error e
        | .ok (l, j) =>
          .ok ((bl, some k) :: l,
               (code :: bl.cid.hash.drop (bl.cid.hash.length - supportedHashLen)) ++ j)

/-- The write batch of the `put` closure: `batch.Set` every non-skipped
key to its block bytes (applied at `batch.Flush`). -/
def applyBatch (db : KV) : List (Block × Option (List Nat)) → KV
  | [] => db
  | (_, none) :: rest => applyBatch db rest
  | (bl, some k) :: rest => applyBatch (kvSet db k bl.rawData) rest

/-- The `put` closure of `PutMany` on one (db, journal) pair: Set all
keys, Flush (failure injected via `flushErr`; on failure the deferred
`batch.Cancel` discards the sets), and only after a successful flush
append the journal buffer. -/
def putBatch (db : KV) (mhj : List Nat) (items : List (Block × Option (List Nat)))
    (jrnl : List Nat) (flushErr : Bool) : Except Err (KV × List Nat) :=
  if flushErr then .error .ioFailure
  else .ok (applyBatch db items, mhj ++ jrnl)

/-- `PutMany`, with flush-error injection for the active store
(`eActive`) and the shadow store (`eNext`).  Pool accounting: one
`pool.Get` per key plus the `jrnlSlab` (which its own defer always
returns); the deferred `toReturn` loop runs on every exit below, but is
only registered when prefixing is enabled. -/
def putManyWith (b : Blockstore) (blocks : List Block) (eActive eNext : Bool) :
    Except Err Unit × Blockstore :=
  if b.state ≠ stateOpen then (.error .closed, b)
  else
    let keys := blocks.map fun bl => (b.PooledStorageKey bl.cid).1
    let poolExit := b.pool + blocks.length -
      (if b.prefixing then blocks.length else 0)
    match probeKeys b.db (blocks.zip keys) with
    | .error e => (.error e, { b with pool := poolExit })
    | .ok (items, jrnl) =>
      match putBatch b.db b.mhJournal items jrnl eActive with
      | .error e => (.error e, { b with pool := poolExit })
      | .ok (db1, j1) =>
        match b.dbNext with
        | none => (.ok (), { b with db := db1, mhJournal := j1, pool := poolExit })
        | some dbn =>
          match putBatch dbn b.mhJournalNext items jrnl eNext with
          | .error e =>
            (.error e, { b with db := db1, mhJournal := j1, pool := poolExit })
          | .ok (dbn1, jn1) =>
            (.ok (),
             { b with db := db1, mhJournal := j1, dbNext := some dbn1,
                      mhJournalNext := jn1, pool := poolExit })

/-- `DeleteMany`, with flush-error injection.  Only the active store's
batch is touched; the journal is deliberately not modified.  Pool
accounting mirrors `PutMany` (deferred return only when prefixing). -/
def deleteManyWith (b : Blockstore) (cids : List Cid) (eFlush : Bool) :
    Except Err Unit × Blockstore :=
  if b.state ≠ stateOpen then (.error .closed, b)
  else
    let keys := cids.map fun c => (b.PooledStorageKey c).1
    let poolExit := b.pool + cids.length -
      (if b.prefixing then cids.length else 0)
    if eFlush then (.error .ioFailure, { b with pool := poolExit })
    else (.ok (), { b with db := keys.foldl kvDelete b.db, pool := poolExit })

/-! ### Read operations -/

/-- `Get`: the undefined-CID check precedes the lifecycle gate; the
pooled key is returned by a defer on every exit below it. -/
def GetOp (b : Blockstore) (c : Cid) : Except Err (List Nat) × Blockstore :=
  if !c.Defined then (.error .notFound, b)
  else if b.state ≠ stateOpen then (.error .closed, b)
  else
    let k := (b.PooledStorageKey c).1
    let b1 := { b with pool := b.pool + 1 }
    match kvGet b1.db k with
    | none => (.error .notFound, { b1 with pool := b1.pool - 1 })
    | some v => (.ok v, { b1 with pool := b1.pool - 1 })

/-- `Has`: NotFound is a semantic false, not an error. -/
def HasOp (b : Blockstore) (c : Cid) : Except Err Bool × Blockstore :=
  if b.state ≠ stateOpen then (.error .closed, b)
  else
    let k := (b.PooledStorageKey c).1
    let b1 := { b with pool := b.pool + 1 }
    match kvGet b1.db k with
    | none => (.ok false, { b1 with pool := b1.pool - 1 })
    | some _ => (.ok true, { b1 with pool := b1.pool - 1 })

/-- `View`: the callback receives the borrowed value bytes; the model
returns them. -/
def ViewOp (b : Blockstore) (c : Cid) : Except Err (List Nat) × Blockstore :=
  if b.state ≠ stateOpen then (.error .closed, b)
  else
    let k := (b.PooledStorageKey c).1
    let b1 := { b with pool := b.pool + 1 }
    match kvGet b1.db k with
    | none => (.error .notFound, { b1 with pool := b1.pool - 1 })
    | some v => (.ok v, { b1 with pool := b1.pool - 1 })

/-- `GetSize`. -/
def GetSizeOp (b : Blockstore) (c : Cid) : Except Err Nat × Blockstore :=
  if b.state ≠ stateOpen then (.error .closed, b)
  else
    let k := (b.PooledStorageKey c).1
    let b1 := { b with pool := b.pool + 1 }
    match kvGet b1.db k with
    | none => (.error .notFound, { b1 with pool := b1.pool - 1 })
    | some v => (.ok v.length, { b1 with pool := b1.pool - 1 })

/-! ### Iteration -/

/-- `AllKeysChan`: the sequence of CIDs the channel produces, under the
model assumptions that the context never fires and the store stays open
for the iteration's lifetime.  A key whose base32 suffix fails to
decode is logged and skipped (`filterMap`). -/
def allKeysChan (b : Blockstore) : Except Err (List Cid) :=
  if b.state ≠ stateOpen then .error .closed
  else
    let ks := (if b.prefixing then b.db.filter (fun e => b.pfx.isPrefixOf e.1)
               else b.db).map (·.1)
    .ok (ks.filterMap fun k => (base32decode (k.drop b.pfxLen)).map Cid.mk)

def forEachKeyGo (pl : Nat) : List (List Nat) → Except Err (List Cid)
  | [] => .ok []
  | k :: ks =>
    match base32decode (k.drop pl) with
    | none => .error .undecodableKey
    | some mh =>
      match forEachKeyGo pl ks with
      | .error e => .error e
      | .ok cs => .ok (Cid.mk mh :: cs)

/-- `ForEachKey`: synchronous iteration.  The model returns the list of
CIDs the visitor is invoked with; a key whose suffix fails to decode
aborts the iteration with the decode error (visitor errors are not
modelled). -/
def forEachKeyOp (b : Blockstore) : Except Err (List Cid) :=
  if b.state ≠ stateOpen then .error .closed
  else
    let ks := (if b.prefixing then b.db.filter (fun e => b.pfx.isPrefixOf e.1)
               else b.db).map (·.1)
    forEachKeyGo b.pfxLen ks

/-! ### Lifecycle -/

/-- `Flush`: sync the shadow pair if present, the journal and the KV
(syncs are modelled infallible, so only the gate is observable). -/
def flushOp (b : Blockstore) : Except Err Unit × Blockstore :=
  if b.state ≠ stateOpen then (.error .closed, b)
  else (.ok (), b)

/-- `Close`: a second close noops and returns nil; otherwise drain,
close the KV and the journal (close errors are not injected), and move
to Closed. -/
def closeOp (b : Blockstore) : Option Err × Blockstore :=
  if b.state ≠ stateOpen then (none, b)
  else (none, { b with state := stateClosed })

/-! ### Moving GC -/

/-- The environment of one `movingGC` run: injected results of the
filesystem and engine calls the protocol makes.  `linkPathRes = none`
models an `EvalSymlinks` failure (a wrapped I/O error, never
MoveInProgress); `copyCancelled` models the context firing during the
copy. -/
structure MoveEnv where
  linkPathRes : Option String
  nanos : Nat
  openDbErr : Bool
  openJournalErr : Bool
  copyCancelled : Bool
  renameErr : Bool
  symlinkErr : Bool
  secs : Nat
  deriving DecidableEq

/-- `filepath.Dir` on clean slash-separated paths. -/
def fpDir (p : String) : String :=
  String.intercalate "/" (p.splitOn "/").dropLast

/-- `filepath.Base` on clean slash-separated paths. -/
def fpBase (p : String) : String := (p.splitOn "/").getLastD ""

/-- `filepath.Join` of a directory and a basename. -/
def fpJoin (d name : String) : String := d ++ "/" ++ name

/-- The new-path computation of `movingGC` steps 1-2: resolve the
symlink; if the store directory is not a symlink use it as the stem,
else join the resolved parent with the directory's basename; then
append the nanosecond suffix.  Empty when resolution failed (the body
returns before `newPath` is assigned). -/
def newPathOf (b : Blockstore) (env : MoveEnv) : String :=
  match env.linkPathRes with
  | none => ""
  | some linkPath =>
    let basePath := b.optsDir
    let stem := if basePath = linkPath then basePath
                else fpJoin (fpDir linkPath) (fpBase basePath)
    stem ++ "." ++ Nat.repr env.nanos

def doCopyGroup (pl : Nat) : KV → KV → Except Err (KV × List Nat)
  | [], dst => .ok (dst, [])
  | (k, v) :: rest, dst =>
    match base32decode (k.drop pl) with
    | none => .error .undecodableKey
    | some mh =>
      match isMultihashSupported mh with
      | none => .error .unsupportedDigest
      | some code =>
        match doCopyGroup pl rest (kvSet dst k v) with
        | .error e => .error e
        | .ok (d, j) =>
          .ok (d, (code :: mh.drop (mh.length - supportedHashLen)) ++ j)

/-- `doCopy`: stream every key/value group from the old KV into the
shadow, validating each key (base32 decode of the suffix, then the
digest policy), writing the entry to the shadow batch and accumulating
`code || digest` journal records written to the shadow journal after
the group.  The context check at the group boundary is modelled by
`cancelled`; the model uses a single group. -/
def doCopy (cancelled : Bool) (pl : Nat) (src dst : KV) (jrnlFh : List Nat) :
    Except Err (KV × List Nat) :=
  if cancelled then .error .ctxCanceled
  else
    match doCopyGroup pl src dst with
    | .error e => .error e
    | .ok (d, j) => .ok (d, jrnlFh ++ j)

/-- The deferred cleanup of `movingGC`: take and clear `dbNext` /
`mhJournalNext` under the exclusive lock; if a shadow was left over the
move failed, so close it, delete its directory and return the move
state to None; otherwise just return the state to None. -/
def movingGCdefer (b : Blockstore) (newPath : String) : Blockstore :=
  match b.dbNext with
  | none =>
    { b with dbNext := none, mhJournalNext := [], moveState := moveStateNone }
  | some _ =>
    { b with dbNext := none, mhJournalNext := [],
             fs := b.fs.filter (· ≠ newPath), moveState := moveStateNone }

/-- The body of `movingGC` after the initial fence: compute the new
path, open the shadow pair (a successful `badger.Open` creates the new
directory), install it as `dbNext` under the exclusive lock, copy, then
swap, retire the old handles, rename the old directory to the backup
path, symlink the canonical path to the new one (either failure is a
process-fatal panic), and delete the backup.  Returns the result, the
pre-defer state, and `newPath` as captured by the defer. -/
def movingGCbody (b : Blockstore) (env : MoveEnv) :
    Except Err Unit × Blockstore × String :=
  match env.linkPathRes with
  | none => (.error .ioFailure, b, "")
  | some _ =>
    let newPath := newPathOf b env
    if env.openDbErr then (.error .ioFailure, b, newPath)
    else
      let bFs := { b with fs := b.fs ++ [newPath] }
      if env.openJournalErr then (.error .ioFailure, bFs, newPath)
      else
        let bInst := { bFs with dbNext := some [], mhJournalNext := [] }
        match doCopy env.copyCancelled b.pfxLen b.db [] [] with
        | .error e => (.error e, bInst, newPath)
        | .ok (dbN, jN) =>
          let bSwap := { bInst with db := dbN, mhJournal := jN, dbNext := none,
                                    mhJournalNext := [],
                                    moveState := moveStateCleanup }
          let dbPath := b.optsDir
          let backupPath := dbPath ++ ".old." ++ Nat.repr env.secs
          if env.renameErr then (.error .fatal, bSwap, newPath)
          else
            let bRen := { bSwap with
                          fs := bSwap.fs.filter (· ≠ dbPath) ++ [backupPath] }
            if env.symlinkErr then (.error .fatal, bRen, newPath)
            else
              let bLn := { bRen with fs := bRen.fs ++ [dbPath] }
              (.ok (), { bLn with fs := bLn.fs.filter (· ≠ backupPath) }, newPath)

/-- `movingGC`: refuse to start when a move is already underway
(MoveInProgress), fence into Moving, run the body, and apply the
deferred cleanup at every exit (including the panic exits, which
unwind through the defer). -/
def movingGC (b : Blockstore) (env : MoveEnv) : Except Err Unit × Blockstore :=
  if b.moveState ≠ moveStateNone then (.error .moveInProgress, b)
  else
    let b0 := { b with moveState := moveStateMoving }
    let r := movingGCbody b0 env
    (r.1, movingGCdefer r.2.1 r.2.2)

/-- `onlineGC` minus its admission (done by `CollectGarbage`): Flatten
(failure injected), then the GC loop, whose first terminating error is
injected (`firstLoopErr`); `badger.ErrNoRewrite` signals successful
completion.  Timer policy (threshold and check-frequency clamps) is not
load-bearing for any claim and is elided. -/
def onlineGC (flattenErr : Option Err) (firstLoopErr : Err) : Except Err Unit :=
  match flattenErr with
  | some e => .error e
  | none => if firstLoopErr = Err.noRewrite then .ok () else .error firstLoopErr

/-- `CollectGarbage`: lifecycle gate, then either the moving GC (FullGC
option) or the online GC. -/
def collectGarbage (b : Blockstore) (fullGC : Bool) (env : MoveEnv)
    (flattenErr : Option Err) (firstLoopErr : Err) :
    Except Err Unit × Blockstore :=
  if b.state ≠ stateOpen then (.error .closed, b)
  else if fullGC then movingGC b env
  else (onlineGC flattenErr firstLoopErr, b)

end BadgerBs

namespace BadgerBs

theorem b32val_alphaAt : ∀ v : Nat, v < 32 → b32val (alphaAt v) = some v := by decide

theorem base32_decode_encode (bs : List Nat) (h : ∀ x ∈ bs, x < 256) :
    base32decode (base32encode bs) = some bs := by
  induction bs using base32encode.induct with
  | case1 b0 b1 b2 b3 b4 rest ih =>
    have h0 : b0 < 256 := h _ (by simp)
    have h1 : b1 < 256 := h _ (by simp)
    have h2 : b2 < 256 := h _ (by simp)
    have h3 : b3 < 256 := h _ (by simp)
    have h4 : b4 < 256 := h _ (by simp)
    have ihr := ih (fun x hx => h _ (by simp [hx]))
    simp only [base32encode, base32decode]
    rw [b32val_alphaAt _ (by omega), b32val_alphaAt _ (by omega), b32val_alphaAt _ (by omega),
        b32val_alphaAt _ (by omega), b32val_alphaAt _ (by omega), b32val_alphaAt _ (by omega),
        b32val_alphaAt _ (by omega), b32val_alphaAt _ (by omega), ihr]
    simp only [Option.some.injEq, List.cons.injEq]
    exact ⟨by omega, by omega, by omega, by omega, by omega, trivial⟩
  | case2 b0 b1 b2 b3 =>
    have h0 : b0 < 256 := h _ (by simp)
    have h1 : b1 < 256 := h _ (by simp)
    have h2 : b2 < 256 := h _ (by simp)
    have h3 : b3 < 256 := h _ (by simp)
    simp only [base32encode, base32decode]
    rw [b32val_alphaAt _ (by omega), b32val_alphaAt _ (by omega), b32val_alphaAt _ (by omega),
        b32val_alphaAt _ (by omega), b32val_alphaAt _ (by omega), b32val_alphaAt _ (by omega),
        b32val_alphaAt _ (by omega)]
    simp only [Option.some.injEq, List.cons.injEq]
    exact ⟨by omega, by omega, by omega, by omega, trivial⟩
  | case3 b0 b1 b2 =>
    have h0 : b0 < 256 := h _ (by simp)
    have h1 : b1 < 256 := h _ (by simp)
    have h2 : b2 < 256 := h _ (by simp)
    simp only [base32encode, base32decode]
    rw [b32val_alphaAt _ (by omega), b32val_alphaAt _ (by omega), b32val_alphaAt _ (by omega),
        b32val_alphaAt _ (by omega), b32val_alphaAt _ (by omega)]
    simp only [Option.some.injEq, List.cons.injEq]
    exact ⟨by omega, by omega, by omega, trivial⟩
  | case4 b0 b1 =>
    have h0 : b0 < 256 := h _ (by simp)
    have h1 : b1 < 256 := h _ (by simp)
    simp only [base32encode, base32decode]
    rw [b32val_alphaAt _ (by omega), b32val_alphaAt _ (by omega), b32val_alphaAt _ (by omega),
        b32val_alphaAt _ (by omega)]
    simp only [Option.some.injEq, List.cons.injEq]
    exact ⟨by omega, by omega, trivial⟩
  | case5 b0 =>
    have h0 : b0 < 256 := h _ (by simp)
    simp only [base32encode, base32decode]
    rw [b32val_alphaAt _ (by omega), b32val_alphaAt _ (by omega)]
    simp only [Option.some.injEq, List.cons.injEq]
    exact ⟨by omega, trivial⟩
  | case6 => rfl

end BadgerBs

namespace BadgerBs

/-! ### Concrete fixtures used by witnesses and counterexamples -/

/-- A supported sha2-256 multihash: header 0x12 0x20 and 32 bytes 0x11. -/
def mh0 : List Nat := [18, 32] ++ List.replicate 32 17

def cid0 : Cid := ⟨mh0⟩

def blk0 : Block := ⟨cid0, [104, 101, 108, 108, 111]⟩

/-- A freshly opened, empty, non-prefixing store at /tmp/bs. -/
def bs0 : Blockstore :=
  { state := stateOpen, moveState := moveStateNone, db := [], mhJournal := [],
    dbNext := none, mhJournalNext := [], optsDir := "/tmp/bs",
    prefixing := false, pfx := [], pool := 0, fs := ["/tmp/bs"] }

/-- bs0 reopened with prefix "ns/". -/
def bsNs : Blockstore := { bs0 with prefixing := true, pfx := [110, 115, 47] }

/-- bs0 after close. -/
def bsClosed : Blockstore := { bs0 with state := stateClosed }

/-! ### C8 -/

/-- C8: for every supported multihash and every prefix, the storage key is
exactly prefix || base32_no_padding(H), and decoding the suffix after
stripping prefixLen bytes recovers H exactly. -/
theorem C8_key_roundtrip (b : Blockstore) (c : Cid)
    (hwf : b.prefixing = false → b.pfx = [])
    (hsup : (isMultihashSupported c.hash).isSome = true)
    (hbytes : ∀ x ∈ c.hash, x < 256) :
    (b.PooledStorageKey c).1 = b.pfx ++ base32encode c.hash ∧
    base32decode (((b.PooledStorageKey c).1).drop b.pfxLen) = some c.hash := by
  cases hp : b.prefixing with
  | false =>
    simp [Blockstore.PooledStorageKey, Blockstore.pfxLen, hp, hwf hp,
          base32_decode_encode c.hash hbytes]
  | true =>
    simp [Blockstore.PooledStorageKey, Blockstore.pfxLen, hp, List.drop_left,
          base32_decode_encode c.hash hbytes]

theorem C8_key_roundtrip_witness :
    (bsNs.PooledStorageKey cid0).1 = bsNs.pfx ++ base32encode cid0.hash ∧
    base32decode (((bsNs.PooledStorageKey cid0).1).drop bsNs.pfxLen) = some cid0.hash :=
  C8_key_roundtrip bsNs cid0 (by decide) (by decide) (by decide)

/-! ### C10 -/

theorem forEachKeyGo_error (pl : Nat) (ks : List (List Nat))
    (hbad : ∃ k ∈ ks, base32decode (k.drop pl) = none) :
    forEachKeyGo pl ks = .error .undecodableKey := by
  induction ks with
  | nil => simp at hbad
  | cons k ks ih =>
    obtain ⟨k2, hk2, hdec⟩ := hbad
    rcases List.mem_cons.mp hk2 with h | h
    · subst h
      simp [forEachKeyGo, hdec]
    · cases hd : base32decode (k.drop pl) with
      | none => simp [forEachKeyGo, hd]
      | some mh => simp [forEachKeyGo, hd, ih ⟨k2, h, hdec⟩]

/-- C10: a key whose base32 suffix fails to decode is skipped by the lazy
iteration (the channel still produces every other decodable cid, in
particular the ones after the bad key), while the synchronous iteration
aborts with the decode error. -/
theorem C10_iteration_error_handling (b : Blockstore)
    (xs ys : List (List Nat × List Nat)) (bad : List Nat × List Nat)
    (hopen : b.state = stateOpen) (hnp : b.prefixing = false)
    (hdb : b.db = xs ++ bad :: ys)
    (hbad : base32decode bad.1 = none) :
    allKeysChan b =
      .ok (((xs ++ ys).map (·.1)).filterMap
            fun k => (base32decode k).map Cid.mk) ∧
    forEachKeyOp b = .error .undecodableKey := by
  have hpl : b.pfxLen = 0 := by simp [Blockstore.pfxLen, hnp]
  constructor
  · simp [allKeysChan, hopen, hnp, hdb, hpl, List.filterMap_append, hbad]
  · rw [forEachKeyOp]
    simp only [hopen, hnp, if_neg (by simp : ¬ stateOpen ≠ stateOpen), if_false]
    apply forEachKeyGo_error
    exact ⟨bad.1, by simp [hdb, hnp], by simp [hpl, hbad]⟩

theorem C10_iteration_error_handling_witness :
    allKeysChan { bs0 with db := [(base32encode mh0, [7]), ([48], [9])] } =
      .ok [cid0] ∧
    forEachKeyOp { bs0 with db := [(base32encode mh0, [7]), ([48], [9])] } =
      .error .undecodableKey := by
  have h := C10_iteration_error_handling
    { bs0 with db := [(base32encode mh0, [7]), ([48], [9])] }
    [(base32encode mh0, [7])] [] ([48], [9]) rfl rfl rfl (by decide)
  refine ⟨?_, h.2⟩
  rw [h.1]
  rfl

end BadgerBs

namespace BadgerBs

/-! ### C7 -/

/-- C7 counterexample: after close, `Get` of an undefined cid returns
NotFound, not Closed — the undefined-cid check precedes the lifecycle
gate — refuting "every public operation returns the Closed error, for
every input including an undefined cid". -/
theorem C7_counterexample :
    (GetOp bsClosed ⟨[]⟩).1 = .error .notFound ∧ Err.notFound ≠ Err.closed :=
  ⟨rfl, by decide⟩

/-- C7 amended: after close has been initiated, every public operation
returns the Closed error for every defined input — except that `Get` of
an undefined cid returns NotFound before reaching the gate — and a
second close returns success (nil). -/
theorem C7_amended_closed_safety (b : Blockstore) (c : Cid) (env : MoveEnv)
    (fe : Option Err) (le : Err) (blocks : List Block) (cids : List Cid)
    (eA eN eD full : Bool)
    (hclosed : b.state ≠ stateOpen) :
    (HasOp b c).1 = .error .closed ∧
    (c.Defined = true → (GetOp b c).1 = .error .closed) ∧
    (ViewOp b c).1 = .error .closed ∧
    (GetSizeOp b c).1 = .error .closed ∧
    (putManyWith b blocks eA eN).1 = .error .closed ∧
    (deleteManyWith b cids eD).1 = .error .closed ∧
    forEachKeyOp b = .error .closed ∧
    allKeysChan b = .error .closed ∧
    (flushOp b).1 = .error .closed ∧
    (collectGarbage b full env fe le).1 = .error .closed ∧
    (closeOp b).1 = none := by
  exact ⟨by simp [HasOp, hclosed],
         fun hd => by simp [GetOp, hclosed, hd],
         by simp [ViewOp, hclosed],
         by simp [GetSizeOp, hclosed],
         by simp [putManyWith, hclosed],
         by simp [deleteManyWith, hclosed],
         by simp [forEachKeyOp, hclosed],
         by simp [allKeysChan, hclosed],
         by simp [flushOp, hclosed],
         by simp [collectGarbage, hclosed],
         by simp [closeOp, hclosed]⟩

theorem C7_amended_closed_safety_witness :
    (HasOp bsClosed cid0).1 = .error .closed ∧
    (GetOp bsClosed cid0).1 = .error .closed ∧
    (ViewOp bsClosed cid0).1 = .error .closed ∧
    (GetSizeOp bsClosed cid0).1 = .error .closed ∧
    (putManyWith bsClosed [blk0] false false).1 = .error .closed ∧
    (deleteManyWith bsClosed [cid0] false).1 = .error .closed ∧
    forEachKeyOp bsClosed = .error .closed ∧
    allKeysChan bsClosed = .error .closed ∧
    (flushOp bsClosed).1 = .error .closed ∧
    (collectGarbage bsClosed false
      ⟨some "/tmp/bs", 1, false, false, false, false, false, 0⟩
      none .noRewrite).1 = .error .closed ∧
    (closeOp bsClosed).1 = none := by
  have h := C7_amended_closed_safety bsClosed cid0
    ⟨some "/tmp/bs", 1, false, false, false, false, false, 0⟩
    none .noRewrite [blk0] [cid0] false false false false (by decide)
  exact ⟨h.1, h.2.1 (by decide), h.2.2.1, h.2.2.2.1, h.2.2.2.2.1,
         h.2.2.2.2.2.1, h.2.2.2.2.2.2.1, h.2.2.2.2.2.2.2.1,
         h.2.2.2.2.2.2.2.2.1, h.2.2.2.2.2.2.2.2.2.1,
         h.2.2.2.2.2.2.2.2.2.2⟩

/-! ### C9 -/

theorem putManyWith_pool (b : Blockstore) (blocks : List Block) (eA eN : Bool) :
    (putManyWith b blocks eA eN).2.pool =
      if b.state = stateOpen then
        b.pool + blocks.length - (if b.prefixing then blocks.length else 0)
      else b.pool := by
  rw [putManyWith]
  split
  · next h => simp [if_neg (fun h2 => h h2)]
  · next h =>
    have hopen : b.state = stateOpen := by
      by_contra h2; exact h h2
    rw [if_pos hopen]
    rcases hp : probeKeys b.db (blocks.zip (blocks.map fun bl => (b.PooledStorageKey bl.cid).1)) with e | pr
    · simp [hp]
    · obtain ⟨items, jrnl⟩ := pr
      rcases hb : putBatch b.db b.mhJournal items jrnl eA with e | pr2
      · simp [hp, hb]
      · obtain ⟨db1, j1⟩ := pr2
        cases hn : b.dbNext with
        | none => simp [hp, hb, hn]
        | some dbn =>
          rcases hb2 : putBatch dbn b.mhJournalNext items jrnl eN with e | pr3
          · simp [hp, hb, hn, hb2]
          · obtain ⟨dbn1, jn1⟩ := pr3
            simp [hp, hb, hn, hb2]

theorem deleteManyWith_pool (b : Blockstore) (cids : List Cid) (eD : Bool) :
    (deleteManyWith b cids eD).2.pool =
      if b.state = stateOpen then
        b.pool + cids.length - (if b.prefixing then cids.length else 0)
      else b.pool := by
  rw [deleteManyWith]
  split
  · next h => simp [if_neg (fun h2 => h h2)]
  · next h =>
    have hopen : b.state = stateOpen := by
      by_contra h2; exact h h2
    rw [if_pos hopen]
    cases eD <;> simp

/-- C9 counterexample: on a store without prefixing, a successful
put of one block leaves one pooled key buffer outstanding — the
deferred return loop is only registered when prefixing is enabled,
although `PooledStorageKey` always returns a pooled buffer. -/
theorem C9_counterexample :
    (putManyWith bs0 [blk0] false false).2.pool ≠ bs0.pool := by decide

/-- C9 amended: the read operations return their pooled key buffer on
every exit path; `put_many` and `delete_many` return their pooled key
buffers (on every exit path) only when prefixing is enabled — with
prefixing disabled each call leaks one pooled buffer per input. -/
theorem C9_amended_pool_discipline (b : Blockstore) (c : Cid)
    (blocks : List Block) (cids : List Cid) (eA eN eD : Bool)
    (hopen : b.state = stateOpen) :
    (GetOp b c).2.pool = b.pool ∧ (HasOp b c).2.pool = b.pool ∧
    (ViewOp b c).2.pool = b.pool ∧ (GetSizeOp b c).2.pool = b.pool ∧
    (b.prefixing = true →
      (putManyWith b blocks eA eN).2.pool = b.pool ∧
      (deleteManyWith b cids eD).2.pool = b.pool) ∧
    (b.prefixing = false →
      (putManyWith b blocks eA eN).2.pool = b.pool + blocks.length ∧
      (deleteManyWith b cids eD).2.pool = b.pool + cids.length) := by
  refine ⟨?_, ?_, ?_, ?_, fun hp => ?_, fun hp => ?_⟩
  · cases hd : c.Defined with
    | false => simp [GetOp, hd]
    | true =>
      rcases h2 : kvGet b.db ((b.PooledStorageKey c).1) with _ | v <;>
        simp [GetOp, hd, hopen, h2]
  · rcases h2 : kvGet b.db ((b.PooledStorageKey c).1) with _ | v <;>
      simp [HasOp, hopen, h2]
  · rcases h2 : kvGet b.db ((b.PooledStorageKey c).1) with _ | v <;>
      simp [ViewOp, hopen, h2]
  · rcases h2 : kvGet b.db ((b.PooledStorageKey c).1) with _ | v <;>
      simp [GetSizeOp, hopen, h2]
  · constructor
    · rw [putManyWith_pool, if_pos hopen, hp]; simp
    · rw [deleteManyWith_pool, if_pos hopen, hp]; simp
  · constructor
    · rw [putManyWith_pool, if_pos hopen, hp]; simp
    · rw [deleteManyWith_pool, if_pos hopen, hp]; simp

theorem C9_amended_pool_discipline_witness :
    (GetOp bs0 cid0).2.pool = bs0.pool ∧ (HasOp bs0 cid0).2.pool = bs0.pool ∧
    (ViewOp bs0 cid0).2.pool = bs0.pool ∧ (GetSizeOp bs0 cid0).2.pool = bs0.pool ∧
    (bs0.prefixing = true →
      (putManyWith bs0 [blk0] false false).2.pool = bs0.pool ∧
      (deleteManyWith bs0 [cid0] false).2.pool = bs0.pool) ∧
    (bs0.prefixing = false →
      (putManyWith bs0 [blk0] false false).2.pool = bs0.pool + [blk0].length ∧
      (deleteManyWith bs0 [cid0] false).2.pool = bs0.pool + [cid0].length) :=
  C9_amended_pool_discipline bs0 cid0 [blk0] [cid0] false false false rfl

end BadgerBs

namespace BadgerBs

/-! ### C4 -/

/-- bs0 after putting (cid0, [0]). -/
def bs1 : Blockstore := (putManyWith bs0 [⟨cid0, [0]⟩] false false).2

/-- C4 counterexample: re-putting under a cid whose storage key is
present does NOT overwrite the KV entry — `PutMany` marks present keys
as skipped and never calls `batch.Set` for them — refuting "overwrites
the KV entry at that key with the new block bytes". -/
theorem C4_counterexample :
    (putManyWith bs1 [⟨cid0, [1]⟩] false false).1 = .ok () ∧
    kvGet (putManyWith bs1 [⟨cid0, [1]⟩] false false).2.db
      (bs1.PooledStorageKey cid0).1 = some [0] ∧
    some [0] ≠ some ([1] : List Nat) :=
  ⟨rfl, rfl, by decide⟩

/-- C4 amended: putting a block whose storage key is already present
produces no additional journal record and no error, and is a no-op at
the KV level as well: the existing KV entry is left unchanged, not
overwritten. -/
theorem C4_amended_noop (b : Blockstore) (c : Cid) (v w : List Nat)
    (hopen : b.state = stateOpen)
    (hpresent : kvGet b.db (b.PooledStorageKey c).1 = some w) :
    (putManyWith b [⟨c, v⟩] false false).1 = .ok () ∧
    (putManyWith b [⟨c, v⟩] false false).2.mhJournal = b.mhJournal ∧
    (putManyWith b [⟨c, v⟩] false false).2.db = b.db ∧
    (putManyWith b [⟨c, v⟩] false false).2.mhJournalNext = b.mhJournalNext ∧
    (putManyWith b [⟨c, v⟩] false false).2.dbNext = b.dbNext := by
  cases hn : b.dbNext with
  | none =>
    simp [putManyWith, hopen, probeKeys, hpresent, putBatch, applyBatch, hn]
  | some dbn =>
    simp [putManyWith, hopen, probeKeys, hpresent, putBatch, applyBatch, hn]

theorem C4_amended_noop_witness :
    (putManyWith bs1 [⟨cid0, [1, 2]⟩] false false).1 = .ok () ∧
    (putManyWith bs1 [⟨cid0, [1, 2]⟩] false false).2.mhJournal = bs1.mhJournal ∧
    (putManyWith bs1 [⟨cid0, [1, 2]⟩] false false).2.db = bs1.db ∧
    (putManyWith bs1 [⟨cid0, [1, 2]⟩] false false).2.mhJournalNext = bs1.mhJournalNext ∧
    (putManyWith bs1 [⟨cid0, [1, 2]⟩] false false).2.dbNext = bs1.dbNext :=
  C4_amended_noop bs1 cid0 [1, 2] [0] rfl rfl

/-! ### C5 -/

theorem zip_map_self {α β : Type} (f : α → β) :
    ∀ l : List α, l.zip (l.map f) = l.map fun x => (x, f x)
  | [] => rfl
  | a :: l => by simp [zip_map_self f l]

theorem probeKeys_unsupported (db : KV) (items : List (Block × List Nat))
    (hbad : ∃ p ∈ items, kvGet db p.2 = none ∧
            isMultihashSupported p.1.cid.hash = none) :
    probeKeys db items = .error .unsupportedDigest := by
  induction items with
  | nil => simp at hbad
  | cons p rest ih =>
    obtain ⟨q, hq, hget, hsup⟩ := hbad
    rcases List.mem_cons.mp hq with h | h
    · subst h
      simp [probeKeys, hget, hsup]
    · rcases hg : kvGet db p.2 with _ | v
      · rcases hs : isMultihashSupported p.1.cid.hash with _ | code
        · simp [probeKeys, hg, hs]
        · simp [probeKeys, hg, hs, ih ⟨q, h, hget, hsup⟩]
      · simp [probeKeys, hg, ih ⟨q, h, hget, hsup⟩]

/-- C5: a batch containing a block with an unsupported multihash (absent
from the KV — the only reachable situation, since only supported keys
are ever stored) fails entirely with UnsupportedDigest and leaves both
KVs and both journals unchanged. -/
theorem C5_unsupported_rejects_batch (b : Blockstore) (blocks : List Block)
    (bl : Block) (eA eN : Bool)
    (hopen : b.state = stateOpen)
    (hmem : bl ∈ blocks)
    (habsent : kvGet b.db (b.PooledStorageKey bl.cid).1 = none)
    (hunsup : isMultihashSupported bl.cid.hash = none) :
    (putManyWith b blocks eA eN).1 = .error .unsupportedDigest ∧
    (putManyWith b blocks eA eN).2.db = b.db ∧
    (putManyWith b blocks eA eN).2.mhJournal = b.mhJournal ∧
    (putManyWith b blocks eA eN).2.dbNext = b.dbNext ∧
    (putManyWith b blocks eA eN).2.mhJournalNext = b.mhJournalNext := by
  have hprobe : probeKeys b.db
      (blocks.zip (blocks.map fun x => (b.PooledStorageKey x.cid).1)) =
      .error .unsupportedDigest := by
    apply probeKeys_unsupported
    refine ⟨(bl, (b.PooledStorageKey bl.cid).1), ?_, habsent, hunsup⟩
    rw [zip_map_self]
    exact List.mem_map.mpr ⟨bl, hmem, rfl⟩
  simp [putManyWith, hopen, hprobe]

theorem C5_unsupported_rejects_batch_witness :
    (putManyWith bs0 [⟨⟨[240, 0]⟩, [5]⟩] false false).1 = .error .unsupportedDigest ∧
    (putManyWith bs0 [⟨⟨[240, 0]⟩, [5]⟩] false false).2.db = bs0.db ∧
    (putManyWith bs0 [⟨⟨[240, 0]⟩, [5]⟩] false false).2.mhJournal = bs0.mhJournal ∧
    (putManyWith bs0 [⟨⟨[240, 0]⟩, [5]⟩] false false).2.dbNext = bs0.dbNext ∧
    (putManyWith bs0 [⟨⟨[240, 0]⟩, [5]⟩] false false).2.mhJournalNext = bs0.mhJournalNext :=
  C5_unsupported_rejects_batch bs0 [⟨⟨[240, 0]⟩, [5]⟩] ⟨⟨[240, 0]⟩, [5]⟩
    false false rfl (by decide) rfl rfl

/-! ### C6 -/

/-- C6: within a single put (on the active store, and again on the shadow
store), the journal is appended only after the KV write batch for the
same blocks has flushed successfully: an injected flush failure on
either store leaves that store's KV and journal both unchanged, and
whenever the active journal grew, the flush succeeded and the KV batch
of exactly the journalled blocks was applied. -/
theorem C6_journal_after_flush (b : Blockstore) (blocks : List Block) (eA eN : Bool) :
    (eA = true →
      (putManyWith b blocks eA eN).2.mhJournal = b.mhJournal ∧
      (putManyWith b blocks eA eN).2.db = b.db ∧
      (putManyWith b blocks eA eN).2.mhJournalNext = b.mhJournalNext ∧
      (putManyWith b blocks eA eN).2.dbNext = b.dbNext) ∧
    (eN = true →
      (putManyWith b blocks eA eN).2.mhJournalNext = b.mhJournalNext ∧
      (putManyWith b blocks eA eN).2.dbNext = b.dbNext) ∧
    ((putManyWith b blocks eA eN).2.mhJournal ≠ b.mhJournal →
      eA = false ∧
      ∃ items jrnl,
        probeKeys b.db (blocks.zip (blocks.map fun x => (b.PooledStorageKey x.cid).1)) =
          .ok (items, jrnl) ∧
        (putManyWith b blocks eA eN).2.db = applyBatch b.db items ∧
        (putManyWith b blocks eA eN).2.mhJournal = b.mhJournal ++ jrnl) := by
  by_cases hs : b.state = stateOpen
  · rcases hp : probeKeys b.db (blocks.zip (blocks.map fun x => (b.PooledStorageKey x.cid).1)) with e | pr
    · simp [putManyWith, hs, hp]
    · obtain ⟨items, jrnl⟩ := pr
      cases eA with
      | true =>
        simp [putManyWith, hs, hp, putBatch]
      | false =>
        cases hn : b.dbNext with
        | none =>
          simp [putManyWith, hs, hp, putBatch, hn]
        | some dbn =>
          cases eN with
          | true =>
            simp [putManyWith, hs, hp, putBatch, hn]
          | false =>
            simp [putManyWith, hs, hp, putBatch, hn]
  · simp [putManyWith, hs]

theorem C6_journal_after_flush_witness :
    (putManyWith bs0 [blk0] true false).2.mhJournal = bs0.mhJournal ∧
    (putManyWith bs0 [blk0] true false).2.db = bs0.db :=
  ⟨((C6_journal_after_flush bs0 [blk0] true false).1 rfl).1,
   ((C6_journal_after_flush bs0 [blk0] true false).1 rfl).2.1⟩

end BadgerBs

namespace BadgerBs

/-! ### C3 -/

theorem kvGet_kvSet (db : KV) (k v : List Nat) : kvGet (kvSet db k v) k = some v := by
  simp [kvGet, kvSet]

/-- C3 counterexample: `put_many([(c, v)])` can succeed while a
subsequent `get(c)` returns different bytes: when the storage key is
already present with other bytes (reachable through the API, since the
store never hashes data), the put is skipped, so the old value is
returned — refuting the unconditional round-trip. -/
theorem C3_counterexample :
    (putManyWith bs1 [⟨cid0, [1]⟩] false false).1 = .ok () ∧
    (GetOp (putManyWith bs1 [⟨cid0, [1]⟩] false false).2 cid0).1 = .ok [0] ∧
    ([0] : List Nat) ≠ [1] :=
  ⟨rfl, rfl, by decide⟩

/-- C3 amended: if `put_many([(c, v)])` succeeds on an open store and
the storage key of `c` was previously absent or mapped to the same
bytes `v` (in particular for every first-time put), then `get(c)`
returns `v`, `has(c)` is true and `get_size(c)` is `|v|`. -/
theorem C3_amended_roundtrip (b : Blockstore) (c : Cid) (v : List Nat)
    (hdef : c.Defined = true)
    (hok : (putManyWith b [⟨c, v⟩] false false).1 = .ok ())
    (hprev : kvGet b.db (b.PooledStorageKey c).1 = none ∨
             kvGet b.db (b.PooledStorageKey c).1 = some v) :
    (GetOp (putManyWith b [⟨c, v⟩] false false).2 c).1 = .ok v ∧
    (HasOp (putManyWith b [⟨c, v⟩] false false).2 c).1 = .ok true ∧
    (GetSizeOp (putManyWith b [⟨c, v⟩] false false).2 c).1 = .ok v.length := by
  by_cases hs : b.state = stateOpen
  swap
  · simp [putManyWith, hs] at hok
  cases hpx : b.prefixing with
  | false =>
    rcases hprev with hab | hpres
    · simp [Blockstore.PooledStorageKey, hpx] at hab
      rcases hsup : isMultihashSupported c.hash with _ | code
      · simp [putManyWith, hs, probeKeys, Blockstore.PooledStorageKey, hpx,
              hab, hsup] at hok
      · cases hn : b.dbNext with
        | none =>
          simp [GetOp, HasOp, GetSizeOp, putManyWith, hs, probeKeys,
                Blockstore.PooledStorageKey, hpx, hab, hsup, putBatch,
                applyBatch, hn, hdef, kvGet_kvSet]
        | some dbn =>
          simp [GetOp, HasOp, GetSizeOp, putManyWith, hs, probeKeys,
                Blockstore.PooledStorageKey, hpx, hab, hsup, putBatch,
                applyBatch, hn, hdef, kvGet_kvSet]
    · simp [Blockstore.PooledStorageKey, hpx] at hpres
      cases hn : b.dbNext with
      | none =>
        simp [GetOp, HasOp, GetSizeOp, putManyWith, hs, probeKeys,
              Blockstore.PooledStorageKey, hpx, hpres, putBatch,
              applyBatch, hn, hdef]
      | some dbn =>
        simp [GetOp, HasOp, GetSizeOp, putManyWith, hs, probeKeys,
              Blockstore.PooledStorageKey, hpx, hpres, putBatch,
              applyBatch, hn, hdef]
  | true =>
    rcases hprev with hab | hpres
    · simp [Blockstore.PooledStorageKey, hpx] at hab
      rcases hsup : isMultihashSupported c.hash with _ | code
      · simp [putManyWith, hs, probeKeys, Blockstore.PooledStorageKey, hpx,
              hab, hsup] at hok
      · cases hn : b.dbNext with
        | none =>
          simp [GetOp, HasOp, GetSizeOp, putManyWith, hs, probeKeys,
                Blockstore.PooledStorageKey, hpx, hab, hsup, putBatch,
                applyBatch, hn, hdef, kvGet_kvSet]
        | some dbn =>
          simp [GetOp, HasOp, GetSizeOp, putManyWith, hs, probeKeys,
                Blockstore.PooledStorageKey, hpx, hab, hsup, putBatch,
                applyBatch, hn, hdef, kvGet_kvSet]
    · simp [Blockstore.PooledStorageKey, hpx] at hpres
      cases hn : b.dbNext with
      | none =>
        simp [GetOp, HasOp, GetSizeOp, putManyWith, hs, probeKeys,
              Blockstore.PooledStorageKey, hpx, hpres, putBatch,
              applyBatch, hn, hdef]
      | some dbn =>
        simp [GetOp, HasOp, GetSizeOp, putManyWith, hs, probeKeys,
              Blockstore.PooledStorageKey, hpx, hpres, putBatch,
              applyBatch, hn, hdef]

theorem C3_amended_roundtrip_witness :
    (GetOp (putManyWith bs0 [blk0] false false).2 cid0).1 = .ok blk0.rawData ∧
    (HasOp (putManyWith bs0 [blk0] false false).2 cid0).1 = .ok true ∧
    (GetSizeOp (putManyWith bs0 [blk0] false false).2 cid0).1 = .ok blk0.rawData.length :=
  C3_amended_roundtrip bs0 cid0 blk0.rawData (by decide) rfl (Or.inl rfl)

end BadgerBs

namespace BadgerBs

/-! ### C1 -/

/-- A store mid-move: the shadow pair is installed and already holds a
copy of the single stored block. -/
def bsMoving : Blockstore :=
  { bs0 with db := [(base32encode mh0, [7])],
             dbNext := some [(base32encode mh0, [7])],
             moveState := moveStateMoving }

/-- C1 counterexample: while a move is underway, `delete_many` succeeds
but is applied only to the active store — the shadow KV still holds the
deleted block — refuting "every write operation ... both put_many and
delete_many ... is applied to the shadow store as well". -/
theorem C1_counterexample :
    (deleteManyWith bsMoving [cid0] false).1 = .ok () ∧
    kvGet (deleteManyWith bsMoving [cid0] false).2.db (base32encode mh0) = none ∧
    (deleteManyWith bsMoving [cid0] false).2.dbNext = some [(base32encode mh0, [7])] ∧
    kvGet [(base32encode mh0, [7])] (base32encode mh0) = some [7] :=
  ⟨rfl, rfl, rfl, rfl⟩

/-- C1 amended: while a move is underway, a `put_many` that completes
after `dbNext` is installed applies the same KV batch to both stores
and appends the identical journal buffer to both journals; `delete_many`
however is applied to the active store only, leaving the shadow store
untouched. -/
theorem C1_amended_dual_write (b : Blockstore) (blocks : List Block)
    (cids : List Cid) (kvN : KV) (eD : Bool)
    (hnext : b.dbNext = some kvN)
    (hok : (putManyWith b blocks false false).1 = .ok ()) :
    (∃ items jrnl,
      probeKeys b.db (blocks.zip (blocks.map fun x => (b.PooledStorageKey x.cid).1)) =
        .ok (items, jrnl) ∧
      (putManyWith b blocks false false).2.db = applyBatch b.db items ∧
      (putManyWith b blocks false false).2.dbNext = some (applyBatch kvN items) ∧
      (putManyWith b blocks false false).2.mhJournal = b.mhJournal ++ jrnl ∧
      (putManyWith b blocks false false).2.mhJournalNext = b.mhJournalNext ++ jrnl) ∧
    (deleteManyWith b cids eD).2.dbNext = b.dbNext := by
  by_cases hs : b.state = stateOpen
  swap
  · simp [putManyWith, hs] at hok
  constructor
  · rcases hp : probeKeys b.db (blocks.zip (blocks.map fun x => (b.PooledStorageKey x.cid).1)) with e | pr
    · simp [putManyWith, hs, hp] at hok
    · obtain ⟨items, jrnl⟩ := pr
      exact ⟨items, jrnl, hp,
        by simp [putManyWith, hs, hp, putBatch, hnext],
        by simp [putManyWith, hs, hp, putBatch, hnext],
        by simp [putManyWith, hs, hp, putBatch, hnext],
        by simp [putManyWith, hs, hp, putBatch, hnext]⟩
  · cases eD <;> simp [deleteManyWith, hs]

/-- A second supported multihash, distinct from mh0, absent from
bsMoving: its put during the move is a real dual write. -/
def mh1 : List Nat := [18, 32] ++ List.replicate 32 34

def blk1 : Block := ⟨⟨mh1⟩, [9]⟩

theorem C1_amended_dual_write_witness :
    (∃ items jrnl,
      probeKeys bsMoving.db
        ([blk1].zip ([blk1].map fun x => (bsMoving.PooledStorageKey x.cid).1)) =
        .ok (items, jrnl) ∧
      (putManyWith bsMoving [blk1] false false).2.db = applyBatch bsMoving.db items ∧
      (putManyWith bsMoving [blk1] false false).2.dbNext =
        some (applyBatch [(base32encode mh0, [7])] items) ∧
      (putManyWith bsMoving [blk1] false false).2.mhJournal = bsMoving.mhJournal ++ jrnl ∧
      (putManyWith bsMoving [blk1] false false).2.mhJournalNext =
        bsMoving.mhJournalNext ++ jrnl) ∧
    (deleteManyWith bsMoving [cid0] false).2.dbNext = bsMoving.dbNext :=
  C1_amended_dual_write bsMoving [blk1] [cid0] [(base32encode mh0, [7])] false rfl rfl

end BadgerBs

namespace BadgerBs

/-! ### C2 -/

theorem pfxLen_set_moveState (b : Blockstore) (ms : BsMoveState) :
    ({ b with moveState := ms } : Blockstore).pfxLen = b.pfxLen := rfl

theorem newPathOf_set_moveState (b : Blockstore) (ms : BsMoveState) (env : MoveEnv) :
    newPathOf { b with moveState := ms } env = newPathOf b env := by
  unfold newPathOf
  cases env.linkPathRes <;> rfl

theorem doCopyGroup_err (pl : Nat) (src : KV) : ∀ (dst : KV) (e : Err),
    doCopyGroup pl src dst = .error e →
    e = .undecodableKey ∨ e = .unsupportedDigest := by
  induction src with
  | nil => intro dst e h; simp [doCopyGroup] at h
  | cons kv rest ih =>
    intro dst e h
    obtain ⟨k, v⟩ := kv
    rcases hd : base32decode (k.drop pl) with _ | mh
    · simp [doCopyGroup, hd] at h
      exact Or.inl h.symm
    · rcases hsup : isMultihashSupported mh with _ | code
      · simp [doCopyGroup, hd, hsup] at h
        exact Or.inr h.symm
      · rcases hg : doCopyGroup pl rest (kvSet dst k v) with e2 | pr
        · simp [doCopyGroup, hd, hsup, hg] at h
          exact h ▸ ih (kvSet dst k v) e2 hg
        · obtain ⟨d, j⟩ := pr
          simp [doCopyGroup, hd, hsup, hg] at h

theorem movingGC_not_mip (b : Blockstore) (env : MoveEnv) (e : Err)
    (hnone : b.moveState = moveStateNone)
    (h : (movingGC b env).1 = .error e) :
    e ≠ .moveInProgress := by
  rcases hl : env.linkPathRes with _ | lp
  · simp [movingGC, movingGCbody, hnone, hl] at h
    simp [← h]
  · by_cases ho : env.openDbErr = true
    · simp [movingGC, movingGCbody, hnone, hl, ho] at h
      simp [← h]
    · by_cases hj : env.openJournalErr = true
      · simp [movingGC, movingGCbody, hnone, hl, ho, hj] at h
        simp [← h]
      · by_cases hc : env.copyCancelled = true
        · simp [movingGC, movingGCbody, doCopy, hnone, hl, ho, hj, hc] at h
          simp [← h]
        · rcases hg : doCopyGroup b.pfxLen b.db [] with e2 | pr
          · simp [movingGC, movingGCbody, doCopy, hnone, hl, ho, hj, hc, hg,
                  pfxLen_set_moveState] at h
            rcases doCopyGroup_err _ _ _ _ hg with h2 | h2 <;> simp [← h, h2]
          · obtain ⟨d, j⟩ := pr
            by_cases hr : env.renameErr = true
            · simp [movingGC, movingGCbody, doCopy, hnone, hl, ho, hj, hc, hg,
                    pfxLen_set_moveState, hr] at h
              simp [← h]
            · by_cases hsy : env.symlinkErr = true
              · simp [movingGC, movingGCbody, doCopy, hnone, hl, ho, hj, hc, hg,
                      pfxLen_set_moveState, hr, hsy] at h
                simp [← h]
              · simp [movingGC, movingGCbody, doCopy, hnone, hl, ho, hj, hc, hg,
                      pfxLen_set_moveState, hr, hsy] at h

end BadgerBs

namespace BadgerBs

theorem filter_ne_append_self (l : List String) (a : String) (h : a ∉ l) :
    (l ++ [a]).filter (· ≠ a) = l := by
  rw [List.filter_append]
  have h1 : l.filter (· ≠ a) = l := by
    rw [List.filter_eq_self]
    intro x hx
    simp
    exact fun he => h (he ▸ hx)
  simp [h1]
  intro x hx he
  exact h (he ▸ hx)

/-- C2 amended: if moving GC fails at symlink resolution, at opening the
shadow KV, or during the copy (including context cancellation), then on
return the shadow has been closed and deleted, the move state is None
(so a subsequent moving GC can start and MoveInProgress is not
returned), and the canonical path, KV and journal are unchanged.  The
exception forced by the counterexample: a failure to open the shadow
JOURNAL (after the shadow KV opened) is excluded, since on that path the
shadow KV is left open and its directory is not deleted. -/
theorem C2_amended_abort_cleanup (b : Blockstore) (env : MoveEnv) (e : Err)
    (hnone : b.moveState = moveStateNone)
    (hdbn : b.dbNext = none)
    (hjok : env.openJournalErr = false)
    (hfresh : newPathOf b env ∉ b.fs)
    (herr : (movingGC b env).1 = .error e)
    (hnf : e ≠ Err.fatal) :
    (movingGC b env).2.moveState = moveStateNone ∧
    (movingGC b env).2.dbNext = none ∧
    (movingGC b env).2.db = b.db ∧
    (movingGC b env).2.mhJournal = b.mhJournal ∧
    (movingGC b env).2.optsDir = b.optsDir ∧
    (movingGC b env).2.fs = b.fs ∧
    e ≠ Err.moveInProgress ∧
    (∀ env2 e2, (movingGC (movingGC b env).2 env2).1 = .error e2 →
      e2 ≠ Err.moveInProgress) := by
  have hmip := movingGC_not_mip b env e hnone herr
  rcases hl : env.linkPathRes with _ | lp
  · have h2 : (movingGC b env).2 =
        { b with dbNext := none, mhJournalNext := [], moveState := moveStateNone } := by
      simp [movingGC, movingGCbody, movingGCdefer, hnone, hl, hdbn]
    rw [h2]
    exact ⟨rfl, rfl, rfl, rfl, rfl, rfl, hmip,
           fun env2 e2 he2 => movingGC_not_mip _ env2 e2 rfl he2⟩
  · by_cases ho : env.openDbErr = true
    · have h2 : (movingGC b env).2 =
          { b with dbNext := none, mhJournalNext := [], moveState := moveStateNone } := by
        simp [movingGC, movingGCbody, movingGCdefer, hnone, hl, ho, hdbn]
      rw [h2]
      exact ⟨rfl, rfl, rfl, rfl, rfl, rfl, hmip,
             fun env2 e2 he2 => movingGC_not_mip _ env2 e2 rfl he2⟩
    · by_cases hc : env.copyCancelled = true
      · have h2 : (movingGC b env).2 =
            { b with dbNext := none, mhJournalNext := [], moveState := moveStateNone,
                     fs := (b.fs ++ [newPathOf b env]).filter (· ≠ newPathOf b env) } := by
          simp [movingGC, movingGCbody, movingGCdefer, doCopy, hnone, hl, ho,
                hjok, hc, pfxLen_set_moveState, newPathOf_set_moveState]
        rw [h2]
        refine ⟨rfl, rfl, rfl, rfl, rfl, ?_, hmip,
                fun env2 e2 he2 => movingGC_not_mip _ env2 e2 rfl he2⟩
        exact filter_ne_append_self b.fs (newPathOf b env) hfresh
      · rcases hg : doCopyGroup b.pfxLen b.db [] with e2 | pr
        · have h2 : (movingGC b env).2 =
              { b with dbNext := none, mhJournalNext := [], moveState := moveStateNone,
                       fs := (b.fs ++ [newPathOf b env]).filter (· ≠ newPathOf b env) } := by
            simp [movingGC, movingGCbody, movingGCdefer, doCopy, hnone, hl, ho,
                  hjok, hc, hg, pfxLen_set_moveState, newPathOf_set_moveState]
          rw [h2]
          refine ⟨rfl, rfl, rfl, rfl, rfl, ?_, hmip,
                  fun env2 e3 he2 => movingGC_not_mip _ env2 e3 rfl he2⟩
          exact filter_ne_append_self b.fs (newPathOf b env) hfresh
        · obtain ⟨d, j⟩ := pr
          by_cases hr : env.renameErr = true
          · have : Err.fatal = e := by
              simp [movingGC, movingGCbody, doCopy, hnone, hl, ho, hjok, hc, hg,
                    pfxLen_set_moveState, hr] at herr
              exact herr
            exact absurd this.symm hnf
          · by_cases hsy : env.symlinkErr = true
            · have : Err.fatal = e := by
                simp [movingGC, movingGCbody, doCopy, hnone, hl, ho, hjok, hc, hg,
                      pfxLen_set_moveState, hr, hsy] at herr
                exact herr
              exact absurd this.symm hnf
            · simp [movingGC, movingGCbody, doCopy, hnone, hl, ho, hjok, hc, hg,
                    pfxLen_set_moveState, hr, hsy] at herr

end BadgerBs

namespace BadgerBs

/-- The move environment of the counterexample run: the shadow KV opens
fine, opening the shadow journal fails. -/
def envJ : MoveEnv :=
  { linkPathRes := some "/tmp/bs", nanos := 1, openDbErr := false,
    openJournalErr := true, copyCancelled := false, renameErr := false,
    symlinkErr := false, secs := 0 }

/-- C2 counterexample: a failure between computing the new path and
completing the copy — namely the shadow-journal open failing after the
shadow KV was opened — returns the error, but the shadow store is NOT
closed and deleted: `dbNext` was never installed, so the deferred
cleanup skips it and the new directory survives.  (Move state is still
restored and the canonical path unchanged.) -/
theorem C2_counterexample :
    (movingGC bs0 envJ).1 = .error .ioFailure ∧
    newPathOf bs0 envJ ∈ (movingGC bs0 envJ).2.fs :=
  ⟨rfl, by decide⟩

/-- The move environment of the witness run: context cancelled during
the copy. -/
def envC : MoveEnv :=
  { linkPathRes := some "/tmp/bs", nanos := 1, openDbErr := false,
    openJournalErr := false, copyCancelled := true, renameErr := false,
    symlinkErr := false, secs := 0 }

theorem C2_amended_abort_cleanup_witness :
    (movingGC bs0 envC).2.moveState = moveStateNone ∧
    (movingGC bs0 envC).2.dbNext = none ∧
    (movingGC bs0 envC).2.db = bs0.db ∧
    (movingGC bs0 envC).2.mhJournal = bs0.mhJournal ∧
    (movingGC bs0 envC).2.optsDir = bs0.optsDir ∧
    (movingGC bs0 envC).2.fs = bs0.fs ∧
    Err.ctxCanceled ≠ Err.moveInProgress := by
  have h := C2_amended_abort_cleanup bs0 envC .ctxCanceled rfl rfl rfl
    (by decide) rfl (by decide)
  exact ⟨h.1, h.2.1, h.2.2.1, h.2.2.2.1, h.2.2.2.2.1, h.2.2.2.2.2.1,
         h.2.2.2.2.2.2.1⟩

end BadgerBs
